import Mathlib

/-!
A verification development for the Harvard Artifacts collection app (`app.py`).

The embedding models the data-acquisition and persistence pipeline:

* `fetch_data` — the paginated API fetch plus per-record normalization into
  metadata / media / color rows, with the pandas `drop_duplicates` /
  `dropna` post-processing;
* `insert_frames` — the SQLite `INSERT OR REPLACE` upsert into three tables,
  with the value conversions performed by the Python code and the
  `INTEGER PRIMARY KEY` type strictness of SQLite; the connection commits
  once at the end of the call, so an error surfaces before commit and the
  committed store is left unchanged;
* `collectData` / `insertHandler` — the two button handlers, which gate on
  the session-scoped set of lower-cased classifications.

Dynamic Python/JSON/SQLite values are modelled by `Val` (null, integer,
real, text).  SQLite tables are modelled as lists of stored rows in rowid
order; `INSERT OR REPLACE` deletes any conflicting row and appends the new
one.  Two rows of `artifact_colors` conflict only when both primary-key
columns are equal and non-null (SQL uniqueness treats NULLs as distinct).
Column affinity coercion of non-key columns is not modelled (it is a
deterministic value transformation that no claim observes); the strict
typing of `INTEGER PRIMARY KEY` columns is modelled, including the
auto-assignment of a fresh rowid when NULL is inserted.
-/

/-- A dynamic value as it appears in JSON payloads, pandas frames and SQLite
cells: NULL/None/NaN, integer, real or text. -/
inductive Val where
  | null : Val
  | int (n : Int) : Val
  | real (q : Rat) : Val
  | text (s : String) : Val
  deriving Repr, DecidableEq

/-- `pd.isna` — true exactly on the null/missing marker. -/
def Val.isNull : Val → Bool
  | .null => true
  | _ => false

/-- True when the value is an integer. -/
def Val.isInt : Val → Bool
  | .int _ => true
  | _ => false

/-- The integer carried by an integer value (junk elsewhere). -/
def Val.intOf : Val → Int
  | .int n => n
  | _ => 0

/-- Python `int()` truncates a float toward zero. -/
def ratTrunc (q : Rat) : Int :=
  if 0 ≤ q then ⌊q⌋ else ⌈q⌉

/-- One entry of a raw record's `colors` list (`{hue, percent}`). -/
structure RawColor where
  hue : Val
  percent : Val
  deriving Repr, DecidableEq

/-- One raw record of the remote API response, with the fields the code
reads via `obj.get(...)`; a missing field is `Val.null`.  `colors` is
`none` when the key is absent (the code applies `or []`). -/
structure RawRecord where
  id : Val
  title : Val
  culture : Val
  dated : Val
  period : Val
  division : Val
  medium : Val
  dimensions : Val
  weight : Val
  department : Val
  accessionyear : Val
  imagecount : Val
  mediacount : Val
  colorcount : Val
  rank : Val
  datedbegin : Val
  datedend : Val
  colors : Option (List RawColor)
  deriving Repr, DecidableEq

/-- A raw record with every field missing. -/
def blankRec : RawRecord :=
  ⟨.null, .null, .null, .null, .null, .null, .null, .null, .null, .null,
   .null, .null, .null, .null, .null, .null, .null, none⟩

/-- A row of the in-memory metadata frame (`meta_rows` entries). -/
structure MetaRow where
  id : Val
  title : Val
  culture : Val
  dated : Val
  period : Val
  division : Val
  medium : Val
  dimensions : Val
  weight : Val
  department : Val
  accessionyear : Val
  classification : Val
  deriving Repr, DecidableEq

/-- A row of the in-memory media frame (`media_rows` entries). -/
structure MediaRow where
  object_id : Val
  imagecount : Val
  mediacount : Val
  colorcount : Val
  rank : Val
  datedbegin : Val
  datedend : Val
  deriving Repr, DecidableEq

/-- A row of the in-memory colors frame (`color_rows` entries); this is also
the shape of a stored `artifact_colors` row (its columns are flexibly
typed). -/
structure ColorRow where
  object_id : Val
  hue : Val
  percentage : Val
  deriving Repr, DecidableEq

/-- The `info` object of an API payload (`pages` may be absent). -/
structure PageInfo where
  pages : Option Int
  deriving Repr, DecidableEq

/-- One API page payload: optional `records` list and optional `info`. -/
structure Page where
  records : Option (List RawRecord)
  info : Option PageInfo
  deriving Repr, DecidableEq

/-- A transport-level failure of one page request (timeout, or the
`raise_for_status` on a non-2xx response). -/
inductive TransportError where
  | timeout : TransportError
  | httpError (code : Nat) : TransportError
  deriving Repr, DecidableEq

/-- The projection of one raw record into a metadata row, tagging it with
the requested classification (lines 102-115 of `app.py`). -/
def metaOf (classification : String) (o : RawRecord) : MetaRow :=
  ⟨o.id, o.title, o.culture, o.dated, o.period, o.division, o.medium,
   o.dimensions, o.weight, o.department, o.accessionyear, .text classification⟩

/-- The projection of one raw record into a media row (lines 116-124). -/
def mediaOf (o : RawRecord) : MediaRow :=
  ⟨o.id, o.imagecount, o.mediacount, o.colorcount, o.rank, o.datedbegin, o.datedend⟩

/-- The expansion of one raw record's color list into color rows
(lines 125-130); `obj.get("colors") or []` maps a missing list to `[]`. -/
def colorsOf (o : RawRecord) : List ColorRow :=
  (o.colors.getD []).map fun c => ⟨o.id, c.hue, c.percent⟩

/-- The four accumulators of the fetch loop, which also form the result of
`fetch_data` after the pandas post-processing. -/
structure FetchAcc where
  meta : List MetaRow
  media : List MediaRow
  colors : List ColorRow
  raw : List RawRecord
  deriving Repr, DecidableEq

/-- `pandas.DataFrame.drop_duplicates(subset=[key], keep="first")`,
generalized over the key projection: keep each row whose key has not
occurred earlier.  `seen` is the set of keys already kept. -/
def dedupKeepFirstAux {α β : Type} [DecidableEq β] (key : α → β) :
    List β → List α → List α
  | _, [] => []
  | seen, x :: xs =>
    if key x ∈ seen then dedupKeepFirstAux key seen xs
    else x :: dedupKeepFirstAux key (key x :: seen) xs

/-- `drop_duplicates` keeping the first occurrence per key. -/
def dedupKeepFirst {α β : Type} [DecidableEq β] (key : α → β) (l : List α) : List α :=
  dedupKeepFirstAux key [] l

/-- The page-fetch loop of `fetch_data` (lines 92-134), with explicit fuel:
`none` means the fuel ran out (`fetchLoop_isSome` shows the fuel used by
`fetch_data` always suffices).  Each iteration checks `collected < limit`,
requests the next page, stops on an empty `records` list, appends the
page's records to all four accumulators, and stops when the incremented
page counter exceeds the payload's reported page count (which defaults to
the incremented counter itself when absent). -/
def fetchLoop (api : Nat → Except TransportError Page) (classification : String)
    (limit : Int) :
    Nat → Int → Nat → FetchAcc → Option (Except TransportError FetchAcc)
  | 0, _, _, _ => none
  | fuel + 1, collected, page, acc =>
    if collected < limit then
      match api page with
      | .error e => some (.error e)
      | .ok payload =>
        let records := payload.records.getD []
        if records.isEmpty then some (.ok acc)
        else
          let acc' : FetchAcc :=
            { meta := acc.meta ++ records.map (metaOf classification)
              media := acc.media ++ records.map mediaOf
              colors := acc.colors ++ records.flatMap colorsOf
              raw := acc.raw ++ records }
          let collected' := collected + records.length
          let page' := page + 1
          let brk : Bool :=
            match payload.info with
            | some i => decide ((page' : Int) > i.pages.getD (page' : Int))
            | none => false
          if brk then some (.ok acc')
          else fetchLoop api classification limit fuel collected' page' acc'
    else some (.ok acc)

/-- `DEFAULT_FETCH_LIMIT = 2500`. -/
def DEFAULT_FETCH_LIMIT : Int := 2500

/-- `fetch_data(classification, limit)`: run the page loop from page 1 with
nothing collected, then post-process — metadata deduplicated by `id`
keeping the first occurrence, media deduplicated by `object_id` keeping
the first occurrence, color rows with a null `hue` dropped, raw records
returned as accumulated.  The outer `Option` is the loop fuel
(provably sufficient); the `Except` carries a transport failure. -/
def fetch_data (api : Nat → Except TransportError Page) (classification : String)
    (limit : Int) : Option (Except TransportError FetchAcc) :=
  match fetchLoop api classification limit (limit.toNat + 1) 0 1 ⟨[], [], [], []⟩ with
  | none => none
  | some (.error e) => some (.error e)
  | some (.ok acc) =>
      some (.ok
        { meta := dedupKeepFirst (fun r => r.id) acc.meta
          media := dedupKeepFirst (fun r => r.object_id) acc.media
          colors := acc.colors.filter (fun r => !r.hue.isNull)
          raw := acc.raw })

/-- An error raised on the write path of `insert_frames`: the Python
`int()` conversion failing on a non-numeric id, or SQLite rejecting a
non-integer value bound to an `INTEGER PRIMARY KEY` column. -/
inductive StoreError where
  | valueError : StoreError
  | datatypeMismatch : StoreError
  deriving Repr, DecidableEq

/-- A stored `artifact_metadata` row; the `INTEGER PRIMARY KEY` guarantees
the stored id is an integer. -/
structure MetaStored where
  id : Int
  title : Val
  culture : Val
  dated : Val
  period : Val
  division : Val
  medium : Val
  dimensions : Val
  weight : Val
  department : Val
  accessionyear : Val
  classification : Val
  deriving Repr, DecidableEq

/-- A stored `artifact_media` row. -/
structure MediaStored where
  object_id : Int
  imagecount : Val
  mediacount : Val
  colorcount : Val
  rank : Val
  datedbegin : Val
  datedend : Val
  deriving Repr, DecidableEq

/-- The persistent store: the three tables created by `init_db`, each as a
list of rows in rowid order. -/
structure Db where
  metadata : List MetaStored
  media : List MediaStored
  colors : List ColorRow
  deriving Repr, DecidableEq

/-- The store right after `init_db` on a fresh database file. -/
def emptyDb : Db := ⟨[], [], []⟩

/-- One `INSERT OR REPLACE` step: delete every conflicting row and append
the new row (SQLite's REPLACE resolution assigns a fresh rowid, so the new
row goes to the end). -/
def upsert1 {ρ : Type} (conf : ρ → ρ → Bool) (t : List ρ) (r : ρ) : List ρ :=
  t.filter (fun s => !(conf s r)) ++ [r]

/-- `executemany` of an `INSERT OR REPLACE` statement over a row batch. -/
def upsertAll {ρ : Type} (conf : ρ → ρ → Bool) (t : List ρ) (rs : List ρ) : List ρ :=
  rs.foldl (upsert1 conf) t

/-- Conflict on `artifact_metadata`: equal primary-key `id`. -/
def metaConf (a b : MetaStored) : Bool := decide (a.id = b.id)

/-- Conflict on `artifact_media`: equal primary-key `object_id`. -/
def mediaConf (a b : MediaStored) : Bool := decide (a.object_id = b.object_id)

/-- Conflict on `artifact_colors`: both components of the composite key
`(object_id, hue)` equal and non-null (SQL uniqueness never fires on
NULLs). -/
def colorConf (a b : ColorRow) : Bool :=
  decide (a.object_id = b.object_id) && decide (a.hue = b.hue) &&
    !a.object_id.isNull && !a.hue.isNull

/-- Both components of a color row's composite key are non-null. -/
def colorNN (r : ColorRow) : Bool :=
  !r.object_id.isNull && !r.hue.isNull

/-- The rowid SQLite auto-assigns when NULL is inserted into an
`INTEGER PRIMARY KEY` column: one more than the largest existing key, or 1
for an empty table. -/
def nextId (keys : List Int) : Int :=
  match keys with
  | [] => 1
  | k :: ks => ks.foldl max k + 1

/-- Accumulate a decimal digit string into a number; any non-digit
character fails the parse. -/
def natOfDigits? : List Char → Nat → Option Nat
  | [], acc => some acc
  | c :: cs, acc =>
    if c.isDigit then natOfDigits? cs (acc * 10 + (c.toNat - 48)) else none

/-- Parsing a text value as an integer (an optional minus sign followed by
decimal digits); `none` on any other text. -/
def textToInt? (s : String) : Option Int :=
  match s.data with
  | [] => none
  | c :: cs =>
    if c = '-' then
      match cs with
      | [] => none
      | _ => (natOfDigits? cs 0).map (fun n => -(n : Int))
    else (natOfDigits? (c :: cs) 0).map (fun n => (n : Int))

/-- Python `int(v)` as applied to a non-null dynamic value: integers pass
through, floats truncate toward zero, numeric text parses, anything else
raises `ValueError`. -/
def pyInt : Val → Except StoreError Int
  | .int n => .ok n
  | .real q => .ok (ratTrunc q)
  | .text s =>
    match textToInt? s with
    | some n => .ok n
    | none => .error .valueError
  | .null => .error .valueError

/-- The id cell of one metadata record: `int(v)` when the value is present
(line 157), NULL otherwise. -/
def metaRecordId (v : Val) : Except StoreError (Option Int) :=
  if v.isNull then .ok none else (pyInt v).map some

/-- Building the full metadata record list before `executemany`
(lines 152-161): the first failing `int()` conversion aborts the batch. -/
def buildMetaRecords : List MetaRow → Except StoreError (List (Option Int × MetaRow))
  | [] => .ok []
  | r :: rs =>
    match metaRecordId r.id with
    | .error e => .error e
    | .ok i =>
      match buildMetaRecords rs with
      | .error e => .error e
      | .ok rest => .ok ((i, r) :: rest)

/-- Assemble a stored metadata row from its integer key and the remaining
(pass-through) column values. -/
def mkMetaStored (n : Int) (r : MetaRow) : MetaStored :=
  ⟨n, r.title, r.culture, r.dated, r.period, r.division, r.medium,
   r.dimensions, r.weight, r.department, r.accessionyear, r.classification⟩

/-- Insert one prepared metadata record: a NULL key auto-assigns the next
rowid, then `INSERT OR REPLACE`. -/
def applyMetaRec (t : List MetaStored) (rec : Option Int × MetaRow) : List MetaStored :=
  upsert1 metaConf t (mkMetaStored (rec.1.getD (nextId (t.map (fun s => s.id)))) rec.2)

/-- `executemany` over the prepared metadata records. -/
def applyMetaRecs (t : List MetaStored) (recs : List (Option Int × MetaRow)) :
    List MetaStored :=
  recs.foldl applyMetaRec t

/-- SQLite binding a dynamic value to an `INTEGER PRIMARY KEY` column:
NULL auto-assigns, integers pass, integral reals convert, integral text
converts, anything else is a datatype mismatch. -/
def intPkOf : Val → Except StoreError (Option Int)
  | .null => .ok none
  | .int n => .ok (some n)
  | .real q => if q.den = 1 then .ok (some q.num) else .error .datatypeMismatch
  | .text s =>
    match textToInt? s with
    | some n => .ok (some n)
    | none => .error .datatypeMismatch

/-- Assemble a stored media row from its integer key and the remaining
column values. -/
def mkMediaStored (n : Int) (r : MediaRow) : MediaStored :=
  ⟨n, r.imagecount, r.mediacount, r.colorcount, r.rank, r.datedbegin, r.datedend⟩

/-- `executemany` of the media upsert (lines 164-172): rows are applied in
order and the first row whose `object_id` fails the `INTEGER PRIMARY KEY`
binding aborts the statement batch with an error. -/
def applyMediaRows (t : List MediaStored) : List MediaRow → Except StoreError (List MediaStored)
  | [] => .ok t
  | r :: rs =>
    match intPkOf r.object_id with
    | .error e => .error e
    | .ok i =>
      applyMediaRows
        (upsert1 mediaConf t
          (mkMediaStored (i.getD (nextId (t.map (fun s => s.object_id)))) r)) rs

/-- `executemany` of the colors upsert (lines 174-182): flexibly typed
columns, so every row is accepted; conflict resolution per `colorConf`. -/
def applyColorRows (t : List ColorRow) (rs : List ColorRow) : List ColorRow :=
  upsertAll colorConf t rs

/-- `insert_frames(meta_df, media_df, colors_df)`: upsert the three frames
into the store on one connection, committing once at the end (line 183).
An error while writing any table propagates out before the commit, so the
committed store is unchanged — the caller observes only the error.  On
success the returned `Db` is the committed state. -/
def insert_frames (db : Db) (meta : List MetaRow) (media : List MediaRow)
    (colors : List ColorRow) : Except StoreError Db :=
  match buildMetaRecords meta with
  | .error e => .error e
  | .ok recs =>
    let mt := applyMetaRecs db.metadata recs
    match applyMediaRows db.media media with
    | .error e => .error e
    | .ok md => .ok ⟨mt, md, applyColorRows db.colors colors⟩

/-- The message surfaced by a button handler (`st.success` / `st.error` /
`st.warning`). -/
inductive UiMsg where
  | successMsg : UiMsg
  | errorMsg : UiMsg
  | warningMsg : UiMsg
  deriving Repr, DecidableEq

/-- Python `str.lower()` as applied to classification labels (character-wise
lowering of the underlying character list; the labels are ASCII). -/
def pyLower (s : String) : String :=
  ⟨s.data.map Char.toLower⟩

/-- Python `set.add` on the session's classification set. -/
def setAdd (l : List String) (s : String) : List String :=
  if s ∈ l then l else s :: l

/-- The Streamlit session state used by the pipeline, plus the persistent
store reachable through `get_conn()`. -/
structure AppState where
  meta_df : List MetaRow
  media_df : List MediaRow
  colors_df : List ColorRow
  raw_data : List RawRecord
  collected : Bool
  inserted : Bool
  show_choice : Bool
  migrate_click : Bool
  show_queries : Bool
  show_tables_after_insert : Bool
  combined_meta_df : List MetaRow
  combined_media_df : List MediaRow
  combined_colors_df : List ColorRow
  inserted_classifications : List String
  db : Db
  deriving Repr, DecidableEq

/-- The session right after startup (`init_db` run, defaults installed). -/
def emptyState : AppState :=
  { meta_df := [], media_df := [], colors_df := [], raw_data := []
    collected := false, inserted := false, show_choice := false
    migrate_click := false, show_queries := false
    show_tables_after_insert := false
    combined_meta_df := [], combined_media_df := [], combined_colors_df := []
    inserted_classifications := [], db := emptyDb }

/-- The `Collect Data` button handler (lines 270-292): warn on an empty
classification, reject one whose lower-case form was already inserted this
session, otherwise fetch with the default limit; a fetch failure is caught
and reported with the state unchanged. -/
def collectData (api : Nat → Except TransportError Page) (classification : String)
    (st : AppState) : AppState × UiMsg :=
  if classification = "" then (st, .warningMsg)
  else if pyLower classification ∈ st.inserted_classifications then (st, .errorMsg)
  else
    match fetch_data api classification DEFAULT_FETCH_LIMIT with
    | some (.ok res) =>
        ({ st with
            meta_df := res.meta, media_df := res.media, colors_df := res.colors
            raw_data := res.raw, collected := true, inserted := false
            show_choice := true, migrate_click := false, show_queries := false
            show_tables_after_insert := false }, .successMsg)
    | some (.error _) => (st, .errorMsg)
    | none => (st, .errorMsg)

/-- The `Insert` button handler (lines 341-363): warn if nothing was
collected, reject a classification whose lower-case form is already in the
session set, otherwise run `insert_frames`; on success mark the
classification, update the combined display frames (concat then
`drop_duplicates` keeping first), and report success; an exception from
the write path is caught and reported with the state unchanged. -/
def insertHandler (classification : String) (st : AppState) : AppState × UiMsg :=
  if !st.collected then (st, .warningMsg)
  else if pyLower classification ∈ st.inserted_classifications then (st, .errorMsg)
  else
    match insert_frames st.db st.meta_df st.media_df st.colors_df with
    | .error _ => (st, .errorMsg)
    | .ok db1 =>
        ({ st with
            db := db1, inserted := true, show_tables_after_insert := true
            inserted_classifications :=
              setAdd st.inserted_classifications (pyLower classification)
            combined_meta_df :=
              dedupKeepFirst (fun r => r.id) (st.combined_meta_df ++ st.meta_df)
            combined_media_df :=
              dedupKeepFirst (fun r => r.object_id) (st.combined_media_df ++ st.media_df)
            combined_colors_df :=
              dedupKeepFirst (fun r => (r.object_id, r.hue))
                (st.combined_colors_df ++ st.colors_df) }, .successMsg)

/-! ### Generic lemmas about `INSERT OR REPLACE` batches -/

/-- A row of the existing table survives the whole batch exactly when it
conflicts with none of the batch rows. -/
def noConfAll {ρ : Type} (conf : ρ → ρ → Bool) (rs : List ρ) (s : ρ) : Bool :=
  rs.all (fun r => !(conf s r))

theorem upsertAll_append_one {ρ : Type} (conf : ρ → ρ → Bool) (t : List ρ)
    (rs : List ρ) (r : ρ) :
    upsertAll conf t (rs ++ [r]) = upsert1 conf (upsertAll conf t rs) r := by
  simp [upsertAll, List.foldl_append]

theorem upsertAll_eq {ρ : Type} (conf : ρ → ρ → Bool) (t rs : List ρ) :
    upsertAll conf t rs = t.filter (noConfAll conf rs) ++ upsertAll conf [] rs := by
  induction rs generalizing t with
  | nil =>
    show t = List.filter (noConfAll conf []) t ++ []
    rw [List.append_nil]
    exact (List.filter_eq_self.mpr (fun s _ => rfl)).symm
  | cons r rs ih =>
    show upsertAll conf (upsert1 conf t r) rs = _
    rw [ih (upsert1 conf t r)]
    have hrhs : upsertAll conf [] (r :: rs) =
        List.filter (noConfAll conf rs) [r] ++ upsertAll conf [] rs := by
      show upsertAll conf (upsert1 conf [] r) rs = _
      rw [ih (upsert1 conf [] r)]
      rfl
    rw [hrhs, upsert1, List.filter_append, List.append_assoc]
    congr 1
    rw [List.filter_filter]
    congr 1
    funext a
    simp only [noConfAll, List.all_cons]
    rw [Bool.and_comm]

theorem mem_upsertAll {ρ : Type} (conf : ρ → ρ → Bool) (t rs : List ρ) (s : ρ)
    (h : s ∈ upsertAll conf t rs) : s ∈ t ∨ s ∈ rs := by
  induction rs generalizing t with
  | nil => exact Or.inl h
  | cons r rs ih =>
    rcases ih (upsert1 conf t r) h with h1 | h1
    · rcases List.mem_append.1 h1 with h2 | h2
      · exact Or.inl (List.mem_of_mem_filter h2)
      · rw [List.mem_singleton] at h2
        subst h2
        exact Or.inr (List.mem_cons_self s rs)
    · exact Or.inr (List.mem_cons_of_mem r h1)

theorem upsertAll_idem {ρ : Type} (conf : ρ → ρ → Bool) (t rs : List ρ)
    (h : ∀ r ∈ rs, conf r r = true) :
    upsertAll conf (upsertAll conf t rs) rs = upsertAll conf t rs := by
  have h2 : (upsertAll conf [] rs).filter (noConfAll conf rs) = [] := by
    rw [List.filter_eq_nil_iff]
    intro a ha hcontra
    have hm : a ∈ rs := by
      rcases mem_upsertAll conf [] rs a ha with h1 | h1
      · exact absurd h1 (List.not_mem_nil a)
      · exact h1
    have hb : (!conf a a) = true := List.all_eq_true.mp hcontra a hm
    rw [h a hm] at hb
    simp at hb
  rw [upsertAll_eq conf (upsertAll conf t rs) rs, upsertAll_eq conf t rs,
    List.filter_append, h2, List.append_nil]
  congr 1
  rw [List.filter_filter]
  congr 1
  funext a
  rw [Bool.and_self]

theorem pairwise_upsert1 {ρ : Type} {R : ρ → ρ → Prop} (conf : ρ → ρ → Bool)
    (t : List ρ) (r : ρ) (hcr : ∀ s ∈ t, conf s r = false → R s r)
    (h : t.Pairwise R) : (upsert1 conf t r).Pairwise R := by
  apply List.pairwise_append.2
  refine ⟨h.filter _, List.pairwise_singleton R r, ?_⟩
  intro a ha b hb
  rw [List.mem_singleton] at hb
  subst hb
  have hmem := List.mem_of_mem_filter ha
  have hcf := List.of_mem_filter ha
  apply hcr a hmem
  simpa using hcf

theorem pairwise_upsertAll {ρ : Type} {R : ρ → ρ → Prop} (conf : ρ → ρ → Bool)
    (t rs : List ρ) (hcr : ∀ s r, conf s r = false → R s r)
    (h : t.Pairwise R) : (upsertAll conf t rs).Pairwise R := by
  induction rs generalizing t with
  | nil => exact h
  | cons r rs ih => exact ih _ (pairwise_upsert1 conf t r (fun s _ => hcr s r) h)

/-! ### Colors-table specific lemmas -/

/-- Two color rows have different composite keys. -/
def colorKeyNe (a b : ColorRow) : Prop :=
  ¬(a.object_id = b.object_id ∧ a.hue = b.hue)

/-- The Boolean test "this stored color row has the composite key
`(oid, hue)`". -/
def colorKeyB (oid hue : Val) (s : ColorRow) : Bool :=
  decide (s.object_id = oid) && decide (s.hue = hue)

theorem colorConf_true_of (a b : ColorRow) (h1 : a.object_id = b.object_id)
    (h2 : a.hue = b.hue) (hnn : colorNN a = true) : colorConf a b = true := by
  simp only [colorNN, Bool.and_eq_true, Bool.not_eq_true'] at hnn
  rw [h1, h2] at hnn
  simp [colorConf, h1, h2, hnn.1, hnn.2]

theorem colors_upsert1_inv (t : List ColorRow) (r : ColorRow)
    (ht : ∀ s ∈ t, colorNN s = true) (hr : colorNN r = true)
    (hp : t.Pairwise colorKeyNe) :
    (∀ s ∈ upsert1 colorConf t r, colorNN s = true) ∧
      (upsert1 colorConf t r).Pairwise colorKeyNe := by
  constructor
  · intro s hs
    rcases List.mem_append.1 hs with h1 | h1
    · exact ht s (List.mem_of_mem_filter h1)
    · rw [List.mem_singleton] at h1
      subst h1
      exact hr
  · apply pairwise_upsert1 colorConf t r ?_ hp
    intro s hs hconf hk
    have : colorConf s r = true := colorConf_true_of s r hk.1 hk.2 (ht s hs)
    rw [hconf] at this
    cases this

theorem colors_upsertAll_inv (t rs : List ColorRow)
    (ht : ∀ s ∈ t, colorNN s = true) (hrs : ∀ r ∈ rs, colorNN r = true)
    (hp : t.Pairwise colorKeyNe) :
    (∀ s ∈ upsertAll colorConf t rs, colorNN s = true) ∧
      (upsertAll colorConf t rs).Pairwise colorKeyNe := by
  induction rs generalizing t with
  | nil => exact ⟨ht, hp⟩
  | cons r rs ih =>
    have h1 := colors_upsert1_inv t r ht (hrs r (List.mem_cons_self r rs)) hp
    exact ih (upsert1 colorConf t r) h1.1 (fun x hx => hrs x (List.mem_cons_of_mem r hx))
      h1.2

theorem upsertAll_colors_last (t rs : List ColorRow) (oid hue : Val) (r : ColorRow)
    (ht : ∀ s ∈ t, colorNN s = true) :
    (∀ s ∈ rs, colorNN s = true) →
    rs.reverse.find? (colorKeyB oid hue) = some r →
    (upsertAll colorConf t rs).filter (colorKeyB oid hue) = [r] := by
  induction rs using List.reverseRecOn with
  | nil =>
    intro _ hfind
    simp at hfind
  | append_singleton rs x ih =>
    intro hrs hfind
    rw [upsertAll_append_one]
    rw [List.reverse_append] at hfind
    simp only [List.reverse_singleton, List.singleton_append] at hfind
    have hTnn : ∀ s ∈ upsertAll colorConf t rs, colorNN s = true := by
      intro s hs
      rcases mem_upsertAll _ _ _ _ hs with h1 | h1
      · exact ht s h1
      · exact hrs s (List.mem_append.2 (Or.inl h1))
    by_cases hx : colorKeyB oid hue x = true
    · rw [List.find?_cons_of_pos _ hx] at hfind
      injection hfind with hfind
      subst hfind
      rw [upsert1, List.filter_append]
      have hxp : List.filter (colorKeyB oid hue) [x] = [x] := by
        simp [List.filter, hx]
      rw [hxp]
      have hzero :
          List.filter (colorKeyB oid hue)
            (List.filter (fun s => !(colorConf s x)) (upsertAll colorConf t rs)) = [] := by
        rw [List.filter_eq_nil_iff]
        intro a ha hpa
        have hann : colorNN a = true := hTnn a (List.mem_of_mem_filter ha)
        have hsurv := List.of_mem_filter ha
        simp only [colorKeyB, Bool.and_eq_true, decide_eq_true_eq] at hpa hx
        have hc : colorConf a x = true :=
          colorConf_true_of a x (hpa.1.trans hx.1.symm) (hpa.2.trans hx.2.symm) hann
        simp only [hc, Bool.not_true] at hsurv
        exact Bool.false_ne_true hsurv
      rw [hzero, List.nil_append]
    · have hxf : ¬ (colorKeyB oid hue x = true) := hx
      rw [List.find?_cons_of_neg _ hxf] at hfind
      rw [upsert1, List.filter_append]
      have hnilx : List.filter (colorKeyB oid hue) [x] = [] := by
        simp only [List.filter]
        rw [Bool.eq_false_iff.mpr hx]
      rw [hnilx, List.append_nil, List.filter_filter]
      have hfunc :
          (fun a => colorKeyB oid hue a && !(colorConf a x)) = colorKeyB oid hue := by
        funext a
        cases hpa : colorKeyB oid hue a
        · simp
        · simp only [Bool.true_and]
          simp only [colorKeyB, Bool.and_eq_true, decide_eq_true_eq] at hpa
          cases hca : colorConf a x
          · rfl
          · exfalso
            simp only [colorConf, Bool.and_eq_true, decide_eq_true_eq] at hca
            apply hx
            simp only [colorKeyB, Bool.and_eq_true, decide_eq_true_eq]
            exact ⟨hca.1.1.1.symm.trans hpa.1, hca.1.1.2.symm.trans hpa.2⟩
      rw [hfunc]
      exact ih (fun s hs => hrs s (List.mem_append.2 (Or.inl hs))) hfind

/-! ### `drop_duplicates(keep="first")` lemmas -/

theorem dedupKeepFirstAux_filter {α β : Type} [DecidableEq β] (key : α → β) (k : β)
    (l : List α) : ∀ (seen : List β),
      (k ∈ seen →
        (dedupKeepFirstAux key seen l).filter (fun y => decide (key y = k)) = []) ∧
      (k ∉ seen →
        (dedupKeepFirstAux key seen l).filter (fun y => decide (key y = k)) =
          (l.find? (fun y => decide (key y = k))).toList) := by
  induction l with
  | nil =>
    intro seen
    constructor <;> intro _ <;> simp [dedupKeepFirstAux]
  | cons x xs ih =>
    intro seen
    by_cases hseen : key x ∈ seen
    · rw [show dedupKeepFirstAux key seen (x :: xs) = dedupKeepFirstAux key seen xs from by
        simp [dedupKeepFirstAux, hseen]]
      constructor
      · intro hk
        exact (ih seen).1 hk
      · intro hk
        have hxk : ¬ (key x = k) := fun he => hk (he ▸ hseen)
        rw [List.find?_cons_of_neg _ (by simpa using hxk)]
        exact (ih seen).2 hk
    · rw [show dedupKeepFirstAux key seen (x :: xs) =
          x :: dedupKeepFirstAux key (key x :: seen) xs from by
        simp [dedupKeepFirstAux, hseen]]
      constructor
      · intro hk
        have hxk : ¬ (key x = k) := fun he => hseen (he ▸ hk)
        rw [List.filter_cons_of_neg (by simpa using hxk)]
        exact (ih (key x :: seen)).1 (List.mem_cons_of_mem _ hk)
      · intro hk
        by_cases hxk : key x = k
        · rw [List.filter_cons_of_pos (by simpa using hxk)]
          rw [List.find?_cons_of_pos _ (by simpa using hxk)]
          have hmem : k ∈ key x :: seen := by
            rw [← hxk]
            exact List.mem_cons_self _ _
          rw [(ih (key x :: seen)).1 hmem]
          rfl
        · rw [List.filter_cons_of_neg (by simpa using hxk)]
          rw [List.find?_cons_of_neg _ (by simpa using hxk)]
          have hk2 : k ∉ key x :: seen := by
            intro hmem
            rcases List.mem_cons.1 hmem with h | h
            · exact hxk h.symm
            · exact hk h
          exact (ih (key x :: seen)).2 hk2

theorem dedupKeepFirst_filter {α β : Type} [DecidableEq β] (key : α → β) (k : β)
    (l : List α) (r : α) (hfind : l.find? (fun y => decide (key y = k)) = some r) :
    (dedupKeepFirst key l).filter (fun y => decide (key y = k)) = [r] := by
  have h := (dedupKeepFirstAux_filter key k l []).2 (by simp)
  rw [dedupKeepFirst, h, hfind]
  rfl

/-! ### Fetch-loop lemmas -/

theorem fetchLoop_isSome (api : Nat → Except TransportError Page)
    (classification : String) (limit : Int) :
    ∀ (fuel : Nat) (collected : Int) (page : Nat) (acc : FetchAcc),
      (limit - collected).toNat < fuel →
      (fetchLoop api classification limit fuel collected page acc).isSome := by
  intro fuel
  induction fuel with
  | zero =>
    intro collected page acc h
    exact absurd h (Nat.not_lt_zero _)
  | succ fuel ih =>
    intro collected page acc h
    unfold fetchLoop
    by_cases hcl : collected < limit
    · rw [if_pos hcl]
      cases hapi : api page with
      | error e => simp
      | ok payload =>
        dsimp only
        by_cases hrec : (payload.records.getD []).isEmpty
        · rw [if_pos hrec]
          simp
        · rw [if_neg hrec]
          split
          · simp
          · apply ih
            have hlen : 1 ≤ (payload.records.getD []).length := by
              cases hL : payload.records.getD [] with
              | nil =>
                rw [hL] at hrec
                simp at hrec
              | cons a l => simp
            omega
    · rw [if_neg hcl]
      simp

theorem fetchLoop_error (api : Nat → Except TransportError Page)
    (classification : String) (limit : Int) :
    ∀ (fuel : Nat) (collected : Int) (page : Nat) (acc : FetchAcc)
      (e : TransportError),
      fetchLoop api classification limit fuel collected page acc = some (.error e) →
      ∃ p, api p = .error e := by
  intro fuel
  induction fuel with
  | zero =>
    intro collected page acc e h
    simp [fetchLoop] at h
  | succ fuel ih =>
    intro collected page acc e h
    unfold fetchLoop at h
    by_cases hcl : collected < limit
    · rw [if_pos hcl] at h
      cases hapi : api page with
      | error e2 =>
        rw [hapi] at h
        simp only [Option.some.injEq, Except.error.injEq] at h
        subst h
        exact ⟨page, hapi⟩
      | ok payload =>
        rw [hapi] at h
        dsimp only at h
        by_cases hrec : (payload.records.getD []).isEmpty
        · rw [if_pos hrec] at h
          simp at h
        · rw [if_neg hrec] at h
          split at h
          · simp at h
          · exact ih _ _ _ e h
    · rw [if_neg hcl] at h
      simp at h

theorem fetchLoop_acc (api : Nat → Except TransportError Page)
    (classification : String) (limit : Int) :
    ∀ (fuel : Nat) (collected : Int) (page : Nat) (acc res : FetchAcc),
      fetchLoop api classification limit fuel collected page acc = some (.ok res) →
      ∃ d : List RawRecord,
        res.raw = acc.raw ++ d ∧
        res.meta = acc.meta ++ d.map (metaOf classification) ∧
        res.media = acc.media ++ d.map mediaOf ∧
        res.colors = acc.colors ++ d.flatMap colorsOf := by
  intro fuel
  induction fuel with
  | zero =>
    intro collected page acc res h
    simp [fetchLoop] at h
  | succ fuel ih =>
    intro collected page acc res h
    unfold fetchLoop at h
    by_cases hcl : collected < limit
    · rw [if_pos hcl] at h
      cases hapi : api page with
      | error e2 =>
        rw [hapi] at h
        simp at h
      | ok payload =>
        rw [hapi] at h
        dsimp only at h
        by_cases hrec : (payload.records.getD []).isEmpty
        · rw [if_pos hrec] at h
          simp only [Option.some.injEq, Except.ok.injEq] at h
          subst h
          exact ⟨[], by simp⟩
        · rw [if_neg hrec] at h
          split at h
          · simp only [Option.some.injEq, Except.ok.injEq] at h
            subst h
            exact ⟨payload.records.getD [], by simp⟩
          · rcases ih _ _ _ _ h with ⟨d, h1, h2, h3, h4⟩
            refine ⟨payload.records.getD [] ++ d, ?_, ?_, ?_, ?_⟩
            · rw [h1]
              simp [List.append_assoc]
            · rw [h2]
              simp [List.append_assoc]
            · rw [h3]
              simp [List.append_assoc]
            · rw [h4]
              simp [List.append_assoc]
    · rw [if_neg hcl] at h
      simp only [Option.some.injEq, Except.ok.injEq] at h
      subst h
      exact ⟨[], by simp⟩

/-! ### `insert_frames` lemmas -/

theorem Val.isInt_elim (v : Val) (h : v.isInt = true) : ∃ n : Int, v = .int n := by
  cases v with
  | int n => exact ⟨n, rfl⟩
  | null => cases h
  | real q => cases h
  | text s => cases h

theorem insert_frames_ok_elim (db : Db) (meta : List MetaRow) (media : List MediaRow)
    (colors : List ColorRow) (db1 : Db)
    (h : insert_frames db meta media colors = .ok db1) :
    ∃ recs, buildMetaRecords meta = .ok recs ∧
      applyMediaRows db.media media = .ok db1.media ∧
      db1.metadata = applyMetaRecs db.metadata recs ∧
      db1.colors = applyColorRows db.colors colors := by
  unfold insert_frames at h
  cases hb : buildMetaRecords meta with
  | error e =>
    rw [hb] at h
    cases h
  | ok recs =>
    rw [hb] at h
    dsimp only at h
    cases hm : applyMediaRows db.media media with
    | error e =>
      rw [hm] at h
      cases h
    | ok md =>
      rw [hm] at h
      simp only [Except.ok.injEq] at h
      subst h
      exact ⟨recs, rfl, rfl, rfl, rfl⟩

theorem buildMetaRecords_conform (ms : List MetaRow)
    (h : ∀ r ∈ ms, r.id.isInt = true) :
    buildMetaRecords ms = .ok (ms.map fun r => (some r.id.intOf, r)) := by
  induction ms with
  | nil => rfl
  | cons r rs ih =>
    rcases Val.isInt_elim r.id (h r (List.mem_cons_self r rs)) with ⟨n, hn⟩
    have hid : metaRecordId r.id = .ok (some n) := by
      rw [hn]
      rfl
    unfold buildMetaRecords
    rw [hid, ih (fun x hx => h x (List.mem_cons_of_mem r hx))]
    simp [hn, Val.intOf]

theorem applyMetaRecs_conform (t : List MetaStored) (ms : List MetaRow) :
    applyMetaRecs t (ms.map fun r => (some r.id.intOf, r)) =
      upsertAll metaConf t (ms.map fun r => mkMetaStored r.id.intOf r) := by
  induction ms generalizing t with
  | nil => rfl
  | cons r rs ih =>
    show applyMetaRecs (applyMetaRec t (some r.id.intOf, r)) _ = _
    rw [ih (applyMetaRec t (some r.id.intOf, r))]
    rfl

theorem applyMediaRows_conform (t : List MediaStored) (ms : List MediaRow)
    (h : ∀ r ∈ ms, r.object_id.isInt = true) :
    applyMediaRows t ms =
      .ok (upsertAll mediaConf t (ms.map fun r => mkMediaStored r.object_id.intOf r)) := by
  induction ms generalizing t with
  | nil => rfl
  | cons r rs ih =>
    rcases Val.isInt_elim r.object_id (h r (List.mem_cons_self r rs)) with ⟨n, hn⟩
    have hpk : intPkOf r.object_id = .ok (some n) := by
      rw [hn]
      rfl
    unfold applyMediaRows
    rw [hpk]
    dsimp only
    rw [ih _ (fun x hx => h x (List.mem_cons_of_mem r hx))]
    simp [hn, Val.intOf, upsertAll]

/-- The stored batch obtained from a schema-conforming frame triple. -/
def conformDb (db : Db) (meta : List MetaRow) (media : List MediaRow)
    (colors : List ColorRow) : Db :=
  ⟨upsertAll metaConf db.metadata (meta.map fun r => mkMetaStored r.id.intOf r),
   upsertAll mediaConf db.media (media.map fun r => mkMediaStored r.object_id.intOf r),
   upsertAll colorConf db.colors colors⟩

theorem insert_frames_conform (db : Db) (meta : List MetaRow) (media : List MediaRow)
    (colors : List ColorRow)
    (hm : ∀ r ∈ meta, r.id.isInt = true)
    (hd : ∀ r ∈ media, r.object_id.isInt = true) :
    insert_frames db meta media colors = .ok (conformDb db meta media colors) := by
  unfold insert_frames
  rw [buildMetaRecords_conform meta hm]
  dsimp only
  rw [applyMediaRows_conform db.media media hd]
  rw [applyMetaRecs_conform]
  rfl

theorem pairwise_applyMetaRecs (t : List MetaStored) (recs : List (Option Int × MetaRow))
    (h : t.Pairwise (fun a b => a.id ≠ b.id)) :
    (applyMetaRecs t recs).Pairwise (fun a b => a.id ≠ b.id) := by
  induction recs generalizing t with
  | nil => exact h
  | cons rec recs ih =>
    show (applyMetaRecs (applyMetaRec t rec) recs).Pairwise _
    apply ih
    exact pairwise_upsert1 metaConf _ _
      (fun s _ hconf => by simpa [metaConf] using hconf) h

theorem pairwise_applyMediaRows (t : List MediaStored) (ms : List MediaRow)
    (md : List MediaStored) (h : applyMediaRows t ms = .ok md)
    (hp : t.Pairwise (fun a b => a.object_id ≠ b.object_id)) :
    md.Pairwise (fun a b => a.object_id ≠ b.object_id) := by
  induction ms generalizing t with
  | nil =>
    simp only [applyMediaRows, Except.ok.injEq] at h
    exact h ▸ hp
  | cons r rs ih =>
    unfold applyMediaRows at h
    cases hpk : intPkOf r.object_id with
    | error e =>
      rw [hpk] at h
      cases h
    | ok i =>
      rw [hpk] at h
      dsimp only at h
      apply ih _ h
      exact pairwise_upsert1 mediaConf _ _
        (fun s _ hconf => by simpa [mediaConf] using hconf) hp

/-! ### Session tracker lemmas -/

theorem mem_setAdd_self (l : List String) (s : String) : s ∈ setAdd l s := by
  unfold setAdd
  split
  · assumption
  · exact List.mem_cons_self s l

theorem mem_setAdd_of_mem (l : List String) (s x : String) (h : x ∈ l) :
    x ∈ setAdd l s := by
  unfold setAdd
  split
  · exact h
  · exact List.mem_cons_of_mem s h

theorem insertHandler_gated (st : AppState) (c : String)
    (hcol : st.collected = true)
    (hgate : pyLower c ∈ st.inserted_classifications) :
    insertHandler c st = (st, .errorMsg) := by
  unfold insertHandler
  rw [hcol]
  rw [if_neg (by simp)]
  rw [if_pos hgate]

theorem insertHandler_success_elim (st : AppState) (c : String) (st1 : AppState)
    (h : insertHandler c st = (st1, .successMsg)) :
    st1.collected = st.collected ∧ st.collected = true ∧
      st1.inserted_classifications = setAdd st.inserted_classifications (pyLower c) := by
  unfold insertHandler at h
  by_cases hcol : st.collected = true
  · rw [hcol] at h
    rw [if_neg (by simp)] at h
    by_cases hgate : pyLower c ∈ st.inserted_classifications
    · rw [if_pos hgate] at h
      simp at h
    · rw [if_neg hgate] at h
      cases hins : insert_frames st.db st.meta_df st.media_df st.colors_df with
      | error e =>
        rw [hins] at h
        simp at h
      | ok db1 =>
        rw [hins] at h
        dsimp only at h
        rw [Prod.mk.injEq] at h
        obtain ⟨hst, -⟩ := h
        subst hst
        exact ⟨hcol.symm, hcol, rfl⟩
  · have hfalse : st.collected = false := Bool.eq_false_iff.mpr hcol
    rw [hfalse] at h
    rw [if_pos (by simp)] at h
    simp at h

theorem fetch_data_ok_elim (api : Nat → Except TransportError Page)
    (c : String) (limit : Int) (res : FetchAcc)
    (h : fetch_data api c limit = some (.ok res)) :
    ∃ acc, fetchLoop api c limit (limit.toNat + 1) 0 1 ⟨[], [], [], []⟩ = some (.ok acc) ∧
      res = ⟨dedupKeepFirst (fun r => r.id) acc.meta,
             dedupKeepFirst (fun r => r.object_id) acc.media,
             acc.colors.filter (fun r => !r.hue.isNull), acc.raw⟩ := by
  unfold fetch_data at h
  cases hloop : fetchLoop api c limit (limit.toNat + 1) 0 1 ⟨[], [], [], []⟩ with
  | none =>
    rw [hloop] at h
    cases h
  | some x =>
    rw [hloop] at h
    cases x with
    | error e =>
      dsimp only at h
      simp at h
    | ok acc =>
      dsimp only at h
      simp only [Option.some.injEq, Except.ok.injEq] at h
      exact ⟨acc, rfl, h.symm⟩

/-! ### Claim theorems -/

/-- A metadata frame row with every field missing. -/
def blankMetaRow : MetaRow :=
  ⟨.null, .null, .null, .null, .null, .null, .null, .null, .null, .null, .null, .null⟩

/-- Claim C1: for every store state and every batch of metadata, media and
color rows conforming to the schema (integer keys, non-null color key
components), upserting the batch a second time succeeds and leaves all
three tables exactly as after the first upsert. -/
theorem claim1_upsert_idempotent (db : Db) (meta : List MetaRow)
    (media : List MediaRow) (colors : List ColorRow) (db1 : Db)
    (hm : ∀ r ∈ meta, r.id.isInt = true)
    (hd : ∀ r ∈ media, r.object_id.isInt = true)
    (hc : ∀ r ∈ colors, colorNN r = true)
    (h : insert_frames db meta media colors = .ok db1) :
    insert_frames db1 meta media colors = .ok db1 := by
  have h1 := insert_frames_conform db meta media colors hm hd
  rw [h] at h1
  injection h1 with hdb1
  subst hdb1
  rw [insert_frames_conform _ meta media colors hm hd]
  have hA := upsertAll_idem metaConf db.metadata
    (meta.map fun r => mkMetaStored r.id.intOf r)
    (by
      intro r _
      simp [metaConf])
  have hB := upsertAll_idem mediaConf db.media
    (media.map fun r => mkMediaStored r.object_id.intOf r)
    (by
      intro r _
      simp [mediaConf])
  have hC := upsertAll_idem colorConf db.colors colors
    (by
      intro r hr
      have h5 := hc r hr
      simp only [colorNN, Bool.and_eq_true] at h5
      simp [colorConf, h5.1, h5.2])
  show Except.ok (conformDb (conformDb db meta media colors) meta media colors) = _
  unfold conformDb
  dsimp only
  rw [Except.ok.injEq, Db.mk.injEq]
  exact ⟨hA, ⟨hB, hC⟩⟩

/-- An example metadata row with integer id 1. -/
def exMetaRow : MetaRow :=
  { blankMetaRow with
      id := Val.int 1
      title := Val.text "Vase"
      department := Val.text "Asian Art"
      accessionyear := Val.int 1952
      classification := Val.text "Coins" }

/-- An example media row keyed on object id 1. -/
def exMediaRow : MediaRow :=
  ⟨Val.int 1, Val.int 2, Val.int 3, Val.int 4, Val.real ((5 : Rat)/2),
   Val.int 1500, Val.int 1600⟩

/-- An example color row keyed on (1, Red). -/
def exColorRow : ColorRow := ⟨Val.int 1, Val.text "Red", Val.real ((3 : Rat)/10)⟩

/-- The store obtained by upserting the example batch into the empty store. -/
def exDb1 : Db :=
  ⟨[mkMetaStored 1 exMetaRow], [mkMediaStored 1 exMediaRow], [exColorRow]⟩

/-- Witness for C1: a concrete conforming batch, upserted once and then a
second time, reaches the same store both times. -/
theorem claim1_witness :
    insert_frames emptyDb [exMetaRow] [exMediaRow] [exColorRow] = .ok exDb1 ∧
      insert_frames exDb1 [exMetaRow] [exMediaRow] [exColorRow] = .ok exDb1 :=
  ⟨rfl, claim1_upsert_idempotent emptyDb [exMetaRow] [exMediaRow] [exColorRow] exDb1
    (by decide) (by decide) (by decide) rfl⟩

/-- A raw record carrying only an integer id. -/
def recId (n : Int) : RawRecord := { blankRec with id := Val.int n }

/-- An API whose single page returns two records while reporting one total
page. -/
def apiC2 : Nat → Except TransportError Page := fun _ =>
  .ok ⟨some [recId 1, recId 2], some ⟨some 1⟩⟩

/-- Claim C2 (failing input): with `limit = 1`, the fetch returns a
`rawRecords` list of length 2 — the loop appends each page wholesale and
only checks the limit before requesting the next page, so the claimed
bound `rawRecords.length ≤ limit` is violated. -/
theorem claim2_limit_exceeded :
    ∃ res, fetch_data apiC2 "Coins" 1 = some (.ok res) ∧ res.raw.length = 2 :=
  ⟨_, rfl, rfl⟩

/-- A media row whose `object_id` is non-numeric text: SQLite rejects it
for the `INTEGER PRIMARY KEY` column (datatype mismatch). -/
def badMediaRow : MediaRow :=
  ⟨Val.text "abc", .null, .null, .null, .null, .null, .null⟩

/-- A session that has collected a batch with one valid metadata row and
one media row that violates the media table's key type. -/
def stC3 : AppState :=
  { emptyState with
      collected := true
      meta_df := [{ blankMetaRow with id := Val.int 1 }]
      media_df := [badMediaRow] }

/-- Claim C3 is false on the code: in an upsert whose metadata table write
succeeds and whose media table write then fails, the whole call surfaces
the error before the final commit, so the committed store still has NO
metadata rows — the earlier table does not "stand".  (The last conjunct
shows the metadata write on its own would have succeeded, so the failure
is confined to the media table.) -/
theorem claim3_counterexample :
    insert_frames emptyDb stC3.meta_df stC3.media_df stC3.colors_df =
        .error .datatypeMismatch ∧
      insertHandler "coins" stC3 = (stC3, .errorMsg) ∧
      (insertHandler "coins" stC3).1.db.metadata = [] ∧
      insert_frames emptyDb stC3.meta_df [] [] =
        .ok ⟨[mkMetaStored 1 { blankMetaRow with id := Val.int 1 }], [], []⟩ :=
  ⟨rfl, rfl, rfl, rfl⟩

/-- Claim C3 amended: when a table write inside `insert_frames` fails with
a `StoreError`, the error propagates before the single final commit, so
none of the call's writes are persisted — the session state, including the
committed store, is exactly as before the call (re-running the whole batch
later is safe thanks to idempotence). -/
theorem claim3_error_leaves_store_unchanged (st : AppState) (c : String)
    (e : StoreError) (hcol : st.collected = true)
    (hgate : pyLower c ∉ st.inserted_classifications)
    (herr : insert_frames st.db st.meta_df st.media_df st.colors_df = .error e) :
    insertHandler c st = (st, .errorMsg) := by
  unfold insertHandler
  rw [hcol]
  rw [if_neg (by simp)]
  rw [if_neg hgate]
  rw [herr]

/-- Witness for the amended C3: the failing concrete batch leaves the
session — store included — unchanged. -/
theorem claim3_witness : insertHandler "coins" stC3 = (stC3, .errorMsg) :=
  claim3_error_leaves_store_unchanged stC3 "coins" .datatypeMismatch rfl
    (by decide) rfl

/-- Claim C4: (i) every color row returned by `fetch_data` has a non-null
hue — entries lacking a hue are dropped by the `dropna` step and never
appear; (ii) upserting such batches preserves the invariant that no stored
`artifact_colors` row has a null hue, so no null-hue row is ever written. -/
theorem claim4_null_hue_excluded :
    (∀ (api : Nat → Except TransportError Page) (c : String) (limit : Int)
      (res : FetchAcc), fetch_data api c limit = some (.ok res) →
      ∀ r ∈ res.colors, r.hue.isNull = false) ∧
    (∀ (db : Db) (meta : List MetaRow) (media : List MediaRow)
      (colors : List ColorRow) (db1 : Db),
      (∀ r ∈ colors, r.hue.isNull = false) →
      (∀ r ∈ db.colors, r.hue.isNull = false) →
      insert_frames db meta media colors = .ok db1 →
      ∀ r ∈ db1.colors, r.hue.isNull = false) := by
  constructor
  · intro api c limit res h r hr
    rcases fetch_data_ok_elim api c limit res h with ⟨acc, hloop, hres⟩
    subst hres
    dsimp only at hr
    have := List.of_mem_filter hr
    simpa using this
  · intro db meta media colors db1 hc hdb hok r hr
    rcases insert_frames_ok_elim db meta media colors db1 hok with
      ⟨recs, hb, hm, hmeta, hcol⟩
    rw [hcol] at hr
    rcases mem_upsertAll _ _ _ _ hr with h1 | h1
    · exact hdb r h1
    · exact hc r h1

/-- A raw record with two color entries, the first of which lacks a hue. -/
def recWithColors : RawRecord :=
  { blankRec with
      id := Val.int 7
      colors := some [⟨Val.null, Val.real ((1 : Rat)/2)⟩,
                      ⟨Val.text "Grey", Val.real ((1 : Rat)/4)⟩] }

/-- An API whose single page returns the record with a hue-less color
entry. -/
def apiC4 : Nat → Except TransportError Page := fun _ =>
  .ok ⟨some [recWithColors], some ⟨some 1⟩⟩

/-- The fetch result for `apiC4`: the hue-less entry is gone. -/
def resC4 : FetchAcc :=
  ⟨[metaOf "Coins" recWithColors], [mediaOf recWithColors],
   [⟨Val.int 7, Val.text "Grey", Val.real ((1 : Rat)/4)⟩], [recWithColors]⟩

/-- The store after upserting the `apiC4` fetch result into the empty
store. -/
def dbC4 : Db :=
  ⟨[mkMetaStored 7 (metaOf "Coins" recWithColors)],
   [mkMediaStored 7 (mediaOf recWithColors)],
   [⟨Val.int 7, Val.text "Grey", Val.real ((1 : Rat)/4)⟩]⟩

/-- Witness for C4 at a concrete fetch-and-insert run. -/
theorem claim4_witness :
    (fetch_data apiC4 "Coins" 5 = some (.ok resC4) ∧
      ∀ r ∈ resC4.colors, r.hue.isNull = false) ∧
    ∀ r ∈ dbC4.colors, r.hue.isNull = false :=
  ⟨⟨rfl, claim4_null_hue_excluded.1 apiC4 "Coins" 5 resC4 rfl⟩,
   claim4_null_hue_excluded.2 emptyDb resC4.meta resC4.media resC4.colors dbC4
     (by decide) (by decide) rfl⟩

/-- Claim C5: in the result of any fetch, the metadata rows are the raw
records' projections deduplicated by id keeping the first occurrence: for
every id value present, the returned frame holds exactly one row with that
id, and it is the first projected row carrying it; likewise for the media
rows keyed by object id. -/
theorem claim5_dedup_first_wins (api : Nat → Except TransportError Page)
    (c : String) (limit : Int) (res : FetchAcc)
    (h : fetch_data api c limit = some (.ok res)) :
    (∀ (i : Val) (r : MetaRow),
      (res.raw.map (metaOf c)).find? (fun y => decide (y.id = i)) = some r →
      res.meta.filter (fun y => decide (y.id = i)) = [r]) ∧
    (∀ (i : Val) (r : MediaRow),
      (res.raw.map mediaOf).find? (fun y => decide (y.object_id = i)) = some r →
      res.media.filter (fun y => decide (y.object_id = i)) = [r]) := by
  rcases fetch_data_ok_elim api c limit res h with ⟨acc, hloop, hres⟩
  rcases fetchLoop_acc api c limit _ _ _ _ _ hloop with ⟨d, h1, h2, h3, h4⟩
  simp only [List.nil_append] at h1 h2 h3 h4
  subst hres
  constructor
  · intro i r hfind
    dsimp only at hfind ⊢
    rw [h1] at hfind
    rw [h2]
    exact dedupKeepFirst_filter (fun y => y.id) i (d.map (metaOf c)) r hfind
  · intro i r hfind
    dsimp only at hfind ⊢
    rw [h1] at hfind
    rw [h3]
    exact dedupKeepFirst_filter (fun y => y.object_id) i (d.map mediaOf) r hfind

/-- A raw record with id 5 and title "first". -/
def recDup1 : RawRecord := { blankRec with id := Val.int 5, title := Val.text "first" }

/-- A raw record with the same id 5 and title "second". -/
def recDup2 : RawRecord := { blankRec with id := Val.int 5, title := Val.text "second" }

/-- An API whose single page (hypothetically) returns the same id twice. -/
def apiC5 : Nat → Except TransportError Page := fun _ =>
  .ok ⟨some [recDup1, recDup2], some ⟨some 1⟩⟩

/-- The fetch result for `apiC5`: one metadata row per id, first-seen
values retained. -/
def resC5 : FetchAcc :=
  ⟨[metaOf "Coins" recDup1], [mediaOf recDup1], [], [recDup1, recDup2]⟩

/-- Witness for C5: fetching duplicate ids yields exactly one metadata row
for id 5, with the first occurrence's fields. -/
theorem claim5_witness :
    resC5.meta.filter (fun y => decide (y.id = Val.int 5)) =
      [metaOf "Coins" recDup1] :=
  (claim5_dedup_first_wins apiC5 "Coins" 9 resC5 rfl).1 (Val.int 5)
    (metaOf "Coins" recDup1) rfl

/-- The key-uniqueness invariant of the store: no two metadata rows share
an id, no two media rows share an object id, every stored color row has
non-null key components, and no two color rows share the composite key. -/
def dbInv (db : Db) : Prop :=
  db.metadata.Pairwise (fun a b => a.id ≠ b.id) ∧
  db.media.Pairwise (fun a b => a.object_id ≠ b.object_id) ∧
  (∀ s ∈ db.colors, colorNN s = true) ∧
  db.colors.Pairwise colorKeyNe

/-- Claim C6: the freshly initialized store satisfies key uniqueness, and
every successfully committed upsert of a batch (whose color rows carry
non-null keys, as every fetched batch does) preserves it — replacement on
key collision never duplicates a key. -/
theorem claim6_key_uniqueness :
    dbInv emptyDb ∧
    ∀ (db : Db) (meta : List MetaRow) (media : List MediaRow)
      (colors : List ColorRow) (db1 : Db),
      (∀ r ∈ colors, colorNN r = true) → dbInv db →
      insert_frames db meta media colors = .ok db1 → dbInv db1 := by
  constructor
  · exact ⟨List.Pairwise.nil, List.Pairwise.nil,
      fun s hs => absurd hs (List.not_mem_nil s), List.Pairwise.nil⟩
  · intro db meta media colors db1 hc hinv hok
    rcases insert_frames_ok_elim db meta media colors db1 hok with
      ⟨recs, hb, hm, hmeta, hcol⟩
    rcases hinv with ⟨h1, h2, h3, h4⟩
    refine ⟨?_, ?_, ?_, ?_⟩
    · rw [hmeta]
      exact pairwise_applyMetaRecs _ _ h1
    · exact pairwise_applyMediaRows _ _ _ hm h2
    · rw [hcol]
      exact (colors_upsertAll_inv _ _ h3 hc h4).1
    · rw [hcol]
      exact (colors_upsertAll_inv _ _ h3 hc h4).2

/-- Witness for C6: the store reached by the concrete example upsert
satisfies key uniqueness. -/
theorem claim6_witness : dbInv exDb1 :=
  claim6_key_uniqueness.2 emptyDb [exMetaRow] [exMediaRow] [exColorRow] exDb1
    (by decide) claim6_key_uniqueness.1 rfl

/-- Claim C7: (i) after an insert attempt succeeds for classification `c`,
any insert attempt for a classification equal to `c` up to letter case is
rejected with an error and the whole session state — the store included —
is returned unchanged, so the store's upsert is never reached; (ii)/(iii)
the session tracker only grows: neither handler ever removes a marked
classification, so the rejection persists across later actions. -/
theorem claim7_tracker_gating :
    (∀ (st : AppState) (c : String) (st1 : AppState),
      insertHandler c st = (st1, .successMsg) →
      ∀ c2 : String, pyLower c2 = pyLower c →
      insertHandler c2 st1 = (st1, .errorMsg)) ∧
    (∀ (st : AppState) (c s : String),
      s ∈ st.inserted_classifications →
      s ∈ (insertHandler c st).1.inserted_classifications) ∧
    (∀ (api : Nat → Except TransportError Page) (c : String) (st : AppState)
      (s : String),
      s ∈ st.inserted_classifications →
      s ∈ (collectData api c st).1.inserted_classifications) := by
  refine ⟨?_, ?_, ?_⟩
  · intro st c st1 h c2 hlow
    rcases insertHandler_success_elim st c st1 h with ⟨hc1, hc2, htrack⟩
    apply insertHandler_gated st1 c2 (hc1.trans hc2)
    rw [htrack, hlow]
    exact mem_setAdd_self _ _
  · intro st c s hmem
    unfold insertHandler
    by_cases hcol : st.collected = true
    · rw [hcol]
      rw [if_neg (by simp)]
      by_cases hgate : pyLower c ∈ st.inserted_classifications
      · rw [if_pos hgate]
        exact hmem
      · rw [if_neg hgate]
        cases hins : insert_frames st.db st.meta_df st.media_df st.colors_df with
        | error e => exact hmem
        | ok db1 => exact mem_setAdd_of_mem _ _ _ hmem
    · have hfalse : st.collected = false := Bool.eq_false_iff.mpr hcol
      rw [hfalse]
      rw [if_pos (by simp)]
      exact hmem
  · intro api c st s hmem
    unfold collectData
    by_cases hc : c = ""
    · rw [if_pos hc]
      exact hmem
    · rw [if_neg hc]
      by_cases hgate : pyLower c ∈ st.inserted_classifications
      · rw [if_pos hgate]
        exact hmem
      · rw [if_neg hgate]
        cases hfetch : fetch_data api c DEFAULT_FETCH_LIMIT with
        | none => exact hmem
        | some x => cases x <;> exact hmem

/-- A session that has collected an (empty) batch and inserted nothing
yet. -/
def stC7 : AppState := { emptyState with collected := true }

/-- The session after a successful insert for classification "A". -/
def stC7b : AppState :=
  { emptyState with
      collected := true
      inserted := true
      show_tables_after_insert := true
      inserted_classifications := ["a"] }

/-- An API answering every page request with no records and no info. -/
def apiBlank : Nat → Except TransportError Page := fun _ => .ok ⟨some [], none⟩

/-- Witness for C7: inserting "A" succeeds and marks "a"; a repeat attempt
for "a" is rejected with the session unchanged; and the mark survives both
a later insert attempt and a later Collect Data action. -/
theorem claim7_witness :
    insertHandler "A" stC7 = (stC7b, .successMsg) ∧
      insertHandler "a" stC7b = (stC7b, .errorMsg) ∧
      "a" ∈ (insertHandler "Coins" stC7b).1.inserted_classifications ∧
      "a" ∈ (collectData apiBlank "Coins" stC7b).1.inserted_classifications :=
  ⟨rfl, claim7_tracker_gating.1 stC7 "A" stC7b rfl "a" rfl,
   claim7_tracker_gating.2.1 stC7b "Coins" "a" (by decide),
   claim7_tracker_gating.2.2 apiBlank "Coins" stC7b "a" (by decide)⟩

/-- Claim C8: (i) when a fetch surfaces an error, that error is exactly a
transport failure of one of the page requests, and the fetch returns no
row sets — only the single error; (ii) the Collect Data handler catches
the failure and returns the session state unchanged — `fetch_data` never
touches the store, so nothing partial is persisted. -/
theorem claim8_transport_all_or_nothing :
    (∀ (api : Nat → Except TransportError Page) (c : String) (limit : Int)
      (e : TransportError), fetch_data api c limit = some (.error e) →
      ∃ p, api p = .error e) ∧
    (∀ (api : Nat → Except TransportError Page) (st : AppState) (c : String)
      (e : TransportError), c ≠ "" →
      pyLower c ∉ st.inserted_classifications →
      fetch_data api c DEFAULT_FETCH_LIMIT = some (.error e) →
      collectData api c st = (st, .errorMsg)) := by
  constructor
  · intro api c limit e h
    unfold fetch_data at h
    cases hloop : fetchLoop api c limit (limit.toNat + 1) 0 1 ⟨[], [], [], []⟩ with
    | none =>
      rw [hloop] at h
      cases h
    | some x =>
      rw [hloop] at h
      cases x with
      | error e2 =>
        dsimp only at h
        simp only [Option.some.injEq, Except.error.injEq] at h
        subst h
        exact fetchLoop_error api c limit _ _ _ _ e2 hloop
      | ok acc =>
        dsimp only at h
        simp at h
  · intro api st c e hc hgate hfetch
    unfold collectData
    rw [if_neg hc, if_neg hgate, hfetch]

/-- An API for which every page request times out. -/
def apiFail : Nat → Except TransportError Page := fun _ => .error .timeout

/-- Witness for C8: a failing fetch surfaces the page error, and the
Collect Data handler leaves the session unchanged. -/
theorem claim8_witness :
    (∃ p, apiFail p = .error .timeout) ∧
      collectData apiFail "Coins" emptyState = (emptyState, .errorMsg) :=
  ⟨claim8_transport_all_or_nothing.1 apiFail "Coins" 3 .timeout rfl,
   claim8_transport_all_or_nothing.2 apiFail emptyState "Coins" .timeout
     (by decide) (by decide) rfl⟩

/-- Claim C9: for every positive limit, and every API that answers each
page request with some finite response, the page loop of `fetch_data`
terminates — the fuel `limit + 1` can never run out, because each
iteration either stops or adds at least one record toward the limit. -/
theorem claim9_fetch_terminates (api : Nat → Except TransportError Page)
    (c : String) (limit : Int) (hpos : 0 < limit) :
    (fetch_data api c limit).isSome := by
  unfold fetch_data
  have h := fetchLoop_isSome api c limit (limit.toNat + 1) 0 1 ⟨[], [], [], []⟩
    (by omega)
  cases hloop : fetchLoop api c limit (limit.toNat + 1) 0 1 ⟨[], [], [], []⟩ with
  | none =>
    rw [hloop] at h
    cases h
  | some x =>
    cases x <;> simp

/-- An API that always reports an empty records page. -/
def apiEmpty : Nat → Except TransportError Page := fun _ => .ok ⟨some [], none⟩

/-- Witness for C9 at a concrete API and limit. -/
theorem claim9_witness : (fetch_data apiEmpty "Coins" 5).isSome :=
  claim9_fetch_terminates apiEmpty "Coins" 5 (by decide)

/-- A raw record whose colors list carries the hue "Red" twice with
different percentages. -/
def recC10 : RawRecord :=
  { blankRec with
      id := Val.int 1
      colors := some [⟨Val.text "Red", Val.real ((3 : Rat)/10)⟩,
                      ⟨Val.text "Red", Val.real ((7 : Rat)/10)⟩] }

/-- An API whose single page returns `recC10`. -/
def apiC10 : Nat → Except TransportError Page := fun _ =>
  .ok ⟨some [recC10], some ⟨some 1⟩⟩

/-- The first color row produced for `recC10`. -/
def rowC10a : ColorRow := ⟨Val.int 1, Val.text "Red", Val.real ((3 : Rat)/10)⟩

/-- The second color row produced for `recC10`, same key, the later
percentage. -/
def rowC10b : ColorRow := ⟨Val.int 1, Val.text "Red", Val.real ((7 : Rat)/10)⟩

/-- Claim C10: (i) `fetch_data` does not deduplicate color rows — a
concrete fetch returns two rows with the same (object_id, hue); (ii) when
a batch with duplicate color keys is upserted over a store whose color
rows have non-null keys, the single persisted row for that key is the LAST
occurrence in the batch — in contrast to the first-wins dedup of the
metadata and media frames. -/
theorem claim10_colors_last_wins :
    (∃ res, fetch_data apiC10 "Coins" 5 = some (.ok res) ∧
      res.colors = [rowC10a, rowC10b]) ∧
    (∀ (db : Db) (meta : List MetaRow) (media : List MediaRow)
      (colors : List ColorRow) (db1 : Db) (oid hue : Val) (last : ColorRow),
      (∀ s ∈ db.colors, colorNN s = true) →
      (∀ s ∈ colors, colorNN s = true) →
      insert_frames db meta media colors = .ok db1 →
      colors.reverse.find? (colorKeyB oid hue) = some last →
      db1.colors.filter (colorKeyB oid hue) = [last]) := by
  constructor
  · exact ⟨_, rfl, rfl⟩
  · intro db meta media colors db1 oid hue last hdb hcs hok hfind
    rcases insert_frames_ok_elim db meta media colors db1 hok with
      ⟨recs, hb, hm, hmeta, hcol⟩
    rw [hcol]
    exact upsertAll_colors_last db.colors colors oid hue last hdb hcs hfind

/-- The store after upserting the `apiC10` fetch result into the empty
store: the persisted (1, Red) row carries the last percentage. -/
def dbC10 : Db :=
  ⟨[mkMetaStored 1 (metaOf "Coins" recC10)], [mkMediaStored 1 (mediaOf recC10)],
   [rowC10b]⟩

/-- Witness for C10: inserting the duplicate-key batch persists exactly the
last occurrence for the key (1, Red). -/
theorem claim10_witness :
    dbC10.colors.filter (colorKeyB (Val.int 1) (Val.text "Red")) = [rowC10b] :=
  claim10_colors_last_wins.2 emptyDb [metaOf "Coins" recC10] [mediaOf recC10]
    [rowC10a, rowC10b] dbC10 (Val.int 1) (Val.text "Red") rowC10b
    (by decide) (by decide) rfl rfl
